import Mathlib

/-!
Verification of the source-acquisition and content-validation pipeline of the
AnalysisAlpaca research-aggregation service.

The development shallowly embeds the relevant Python modules:

* `analysis_alpaca/models/research.py`  — data model and `ResearchResult.format_output`
* `analysis_alpaca/search/content_extractor.py` — `ContentExtractor.extract`,
  `ContentExtractor._is_valid_content`, `ContentExtractor.extract_from_source`
* `analysis_alpaca/core/research_service.py` — `ResearchService._extract_valid_content`
  (the batch-retry extraction orchestrator) and
  `ResearchService._select_sources_for_extraction` (the source balancer)
* `analysis_alpaca/search/academic_search.py` and `search/base.py` — the HTTP-status
  flow of `AcademicSearcher.search`

Python strings are modelled as Lean `String` (sequences of characters; Python `len`,
slicing and splitting operate on code points, as do the Lean counterparts used here).
Python `datetime` values are modelled as an abstract `Nat` tick: no claim depends on
time.  The network and the HTML parser (httpx / BeautifulSoup) are modelled as
explicit environments: a fetch either fails with an exception message or yields the
response content-type together with the parsed page fields that
`_extract_title` / `_extract_description` / `_extract_content` would produce.
-/

/-! ## Python string primitives -/

/-- Substring containment, Python's `pat in s`. -/
def strContains (s pat : String) : Bool := decide (pat.data <:+: s.data)

/-- Python `s[:n]` for a non-negative bound: the first `n` characters. -/
def pyTake (s : String) (n : Nat) : String := String.mk (s.data.take n)

/-- Python `s[:k]` for a possibly negative `k`: a negative stop counts from the end
and is clamped at 0 (`s[:k] = s[0 : max 0 (len s + k)]`). -/
def pySliceTo (s : String) (k : Int) : String :=
  if 0 ≤ k then pyTake s k.toNat
  else pyTake s ((s.length : Int) + k).toNat

/-- Python `str.lower()` (character-wise; the texts involved are ASCII, where
Python and `Char.toLower` agree). -/
def pyToLower (s : String) : String := String.mk (s.data.map Char.toLower)

/-- Python `str.strip()` with no argument: drop leading and trailing whitespace
(the whitespace characters occurring in the modelled texts are exactly those of
`Char.isWhitespace`). -/
def pyStrip (s : String) : String :=
  String.mk (((s.data.dropWhile Char.isWhitespace).reverse.dropWhile
    Char.isWhitespace).reverse)

/-- Split a character list at every separator, keeping empty pieces
(the behaviour of Python `str.split(sep)`). -/
def splitCharList (p : Char → Bool) : List Char → List (List Char)
  | [] => [[]]
  | c :: rest =>
    let r := splitCharList p rest
    if p c then [] :: r
    else
      match r with
      | [] => [[c]]
      | w :: ws => (c :: w) :: ws

/-- Python `s.split()` (no argument): split on whitespace runs, discarding empties. -/
def pySplitWhitespace (s : String) : List String :=
  ((splitCharList (fun c => c.isWhitespace) s.data).map String.mk).filter
    (fun w => w != "")

/-- Python `s.split('.')`: split on every dot, keeping empty pieces. -/
def pySplitDot (s : String) : List String :=
  (splitCharList (fun c => c = '.') s.data).map String.mk

/-! ## Data model (`models/research.py`) -/

/-- `SearchSource` enum. -/
inductive SearchSource where
  | web
  | academic
  | both
deriving Repr, DecidableEq

/-- The `.value` attribute of the `SearchSource` enum. -/
def SearchSource.value : SearchSource → String
  | .web => "web"
  | .academic => "academic"
  | .both => "both"

/-- The structured metadata the academic searcher attaches to a result
(`academic_search.py` always sets the keys `authors`, `year`, `venue`, `abstract`;
`metadata.get` defaults never fire for results it produces).  `year` is rendered
as text, so it is modelled as a string. -/
structure PaperMeta where
  authors : String
  year : String
  venue : String
  abstract : String
deriving Repr, DecidableEq

/-- `SearchResult` dataclass: one candidate source. -/
structure SearchResult where
  title : String
  url : String
  snippet : String
  source_type : String
  metadata : Option PaperMeta := none
deriving Repr, DecidableEq

/-- `ExtractedContent` dataclass.  `extraction_time` is an abstract tick. -/
structure ExtractedContent where
  title : String
  url : String
  description : String
  content : String
  extraction_time : Nat
  error : Option String := none
deriving Repr, DecidableEq

/-- `ResearchQuery` dataclass (validation of `__post_init__` is modelled as the
predicate `ResearchQuery.isValid` below). -/
structure ResearchQuery where
  query : String
  sources : SearchSource := .both
  num_results : Nat := 2
deriving Repr, DecidableEq

/-- The checks `ResearchQuery.__post_init__` enforces: non-blank query text and
`1 ≤ num_results ≤ 5` (violations raise `ValueError`). -/
def ResearchQuery.isValid (q : ResearchQuery) : Prop :=
  pyStrip q.query ≠ "" ∧ 1 ≤ q.num_results ∧ q.num_results ≤ 5

/-- `ResearchResult` dataclass.  The `execution_time` float field is unused by any
modelled operation and is omitted. -/
structure ResearchResult where
  query : ResearchQuery
  search_results : List SearchResult
  extracted_content : List ExtractedContent
  summary : String
  total_sources : Nat
  errors : List String
deriving Repr, DecidableEq

/-! ## Validity filter (`ContentExtractor._is_valid_content`) -/

/-- The fixed denylist `error_patterns` of `_is_valid_content`, verbatim. -/
def error_patterns : List String :=
  [ "javascript is disabled"
  , "page restricted"
  , "access denied"
  , "403 forbidden"
  , "404 not found"
  , "503 service unavailable"
  , "login required"
  , "subscription required"
  , "paywall"
  , "please enable javascript"
  , "cookies required"
  , "captcha"
  , "robot verification"
  , "cloudflare"
  , "enable cookies"
  , "browser not supported"
  , "content not available"
  , "page not found"
  , "unauthorized access"
  , "permission denied" ]

/-- The fixed denylist `ui_patterns` of `_is_valid_content`, verbatim. -/
def ui_patterns : List String :=
  [ "skip to main content"
  , "toggle navigation"
  , "menu"
  , "search"
  , "login"
  , "sign up"
  , "cookie policy" ]

/-- `ui_count` of `_is_valid_content`: how many `ui_patterns` occur as substrings of
the lowercased content. -/
def uiCount (content_lower : String) : Nat :=
  (ui_patterns.filter (fun p => strContains content_lower p)).length

/-- `content_words` of `_is_valid_content`: `len(content.split())`. -/
def contentWords (content : String) : Nat := (pySplitWhitespace content).length

/-- The meaningful-sentence count of `_is_valid_content`: sentences (split on ".")
whose stripped length exceeds 20. -/
def meaningfulSentences (content : String) : Nat :=
  ((pySplitDot content).filter (fun s => (pyStrip s).length > 20)).length

/-- `ContentExtractor._is_valid_content`.  The float comparison
`ui_count / content_words > 0.3` is modelled exactly as the rational comparison
`10 * ui_count > 3 * content_words`: `ui_count ≤ 7`, and for every such ratio the
binary64 comparison against the literal `0.3` agrees with the exact rational one
(ties like 3/10 and 6/20 round to the very same double as the literal and compare
equal, hence not greater, in both readings). -/
def is_valid_content (content : String) (description : String := "")
    (title : String := "") : Bool :=
  if (pyStrip content).length < 50 then false
  else
    let content_lower := pyToLower content
    let title_lower := pyToLower title
    let description_lower := pyToLower description
    if error_patterns.any (fun p =>
        strContains content_lower p || strContains title_lower p ||
        strContains description_lower p) then false
    else
      let ui_count := uiCount content_lower
      let content_words := contentWords content
      if content_words > 0 && ui_count * 10 > content_words * 3 then false
      else meaningfulSentences content ≥ 2

/-! ## Content resolver (`ContentExtractor.extract`, `extract_from_source`)

The network and HTML parser are abstracted: a fetch of a URL either raises (any
httpx / parsing exception, carrying its message) or succeeds with the response's
`content-type` header and the parsed page — the title, description and body text
that `_extract_title`, `_extract_description` and `_extract_content` produce from
the HTML.  `extract` consumes such an outcome. -/

/-- The parsed fields of a fetched HTML document, as produced by
`_extract_title` / `_extract_description` / `_extract_content`. -/
structure ParsedPage where
  title : String
  description : String
  content : String
deriving Repr, DecidableEq

/-- Outcome of fetching a URL (the `client.get` + BeautifulSoup stage). -/
inductive FetchOutcome where
  | success (contentType : String) (page : ParsedPage)
  | failure (msg : String)
deriving Repr, DecidableEq

/-- The placeholder result `extract` returns for a PDF content-type. -/
def pdfPlaceholder (url : String) (now : Nat) : ExtractedContent :=
  { title := "PDF Document"
  , url := url
  , description := "PDF document - contents cannot be extracted directly"
  , content := "[PDF document - contents cannot be extracted directly]"
  , extraction_time := now
  , error := none }

/-- `ContentExtractor.extract`.  The enclosing `try`/`except` converts any
exception into an error-populated result with the message truncated to 100
characters; a PDF content-type short-circuits before parsing; content failing
`_is_valid_content` yields an error-populated result with empty content. -/
def extract (url : String) (fetch : FetchOutcome) (now : Nat) : ExtractedContent :=
  match fetch with
  | .failure msg =>
      { title := "Error"
      , url := url
      , description := "Content extraction failed"
      , content := ""
      , extraction_time := now
      , error := some (pyTake msg 100) }
  | .success contentType page =>
      if strContains (pyToLower contentType) "application/pdf" then
        pdfPlaceholder url now
      else if ¬ is_valid_content page.content page.description page.title then
        { title := page.title
        , url := url
        , description := page.description
        , content := ""
        , extraction_time := now
        , error := some "Content validation failed - low quality or restricted content" }
      else
        { title := page.title
        , url := url
        , description := page.description
        , content := page.content
        , extraction_time := now
        , error := none }

/-- The synthesized body text of an academic source
(`"\n".join(content_parts)` in `extract_from_source`). -/
def academicContent (m : PaperMeta) : String :=
  String.intercalate "\n"
    ([ "Authors: " ++ m.authors, "Year: " ++ m.year ]
      ++ (if m.venue != "" then ["Published in: " ++ m.venue] else [])
      ++ [ "", "Abstract:", m.abstract ])

/-- `ContentExtractor.extract_from_source`: academic sources with a non-empty
abstract synthesize content from metadata (falling back to `extract` when the
abstract fails validation); everything else goes through `extract`.  The outer
`try`/`except` is unreachable in the model (the body is total). -/
def extract_from_source (s : SearchResult) (fetch : FetchOutcome) (now : Nat) :
    ExtractedContent :=
  match s.metadata with
  | some m =>
      if s.source_type = "academic" ∧ m.abstract ≠ "" then
        if ¬ is_valid_content m.abstract "" s.title then extract s.url fetch now
        else
          { title := s.title
          , url := s.url
          , description := "Academic paper by " ++ m.authors ++ " (" ++ m.year ++ ")"
          , content := academicContent m
          , extraction_time := now
          , error := none }
      else extract s.url fetch now
  | none => extract s.url fetch now

/-! ## Source balancer (`ResearchService._select_sources_for_extraction`) -/

/-- `len([s for s in combined if s.source_type == t])`. -/
def countType (l : List SearchResult) (t : String) : Nat :=
  (l.filter (fun s => s.source_type == t)).length

/-- The interleaving `for i in range(max(len(web), len(academic)))` loop of
`_select_sources_for_extraction`, with the top-of-iteration break on reaching
`num_results` and the per-provenance cap `max_per_type`; `fuel` is the number of
remaining range values and `i` the current index. -/
def selectIter (web academic : List SearchResult) (target mpt : Nat) :
    Nat → Nat → List SearchResult → List SearchResult
  | 0, _, combined => combined
  | fuel + 1, i, combined =>
    if combined.length ≥ target then combined
    else
      let c1 := match web[i]? with
        | some w => if countType combined "web" < mpt then combined ++ [w] else combined
        | none => combined
      let c2 := match academic[i]? with
        | some a => if countType c1 "academic" < mpt then c1 ++ [a] else c1
        | none => c1
      selectIter web academic target mpt fuel (i + 1) c2

/-- `ResearchService._select_sources_for_extraction`. -/
def select_sources_for_extraction (search_results : List SearchResult)
    (q : ResearchQuery) : List SearchResult :=
  match q.sources with
  | .both =>
      let web_results := search_results.filter (fun r => r.source_type == "web")
      let academic_results := search_results.filter (fun r => r.source_type == "academic")
      let max_per_type := max 1 (q.num_results / 2)
      (selectIter web_results academic_results q.num_results max_per_type
        (max web_results.length academic_results.length) 0 []).take q.num_results
  | _ => search_results.take q.num_results

/-! ## Extraction orchestrator (`ResearchService._extract_valid_content`)

`asyncio.gather(*tasks, return_exceptions=True)` yields, per candidate, either an
`ExtractedContent` or a captured exception; the resolver is therefore modelled as
a function from a candidate to such an outcome, and a batch's resolution is its
pointwise application (concurrency is irrelevant to the resulting values: each
task only reads its own candidate). -/

/-- One element of the gathered batch: an `ExtractedContent` or an exception. -/
inductive ResolveOutcome where
  | exception (msg : String)
  | content (c : ExtractedContent)
deriving Repr, DecidableEq

/-- The orchestrator's state: `valid_content`, the `tried_sources` set (a list
with set semantics: urls are added only when absent), the `errors` list, the skip
log (the `logger.info` skip messages), and `iteration_count`. -/
structure ExtractionState where
  valid_content : List ExtractedContent
  tried : List String
  errors : List String
  skips : List String
  iterations : Nat
deriving Repr, DecidableEq

/-- `tried_sources.add(url)`. -/
def addTried (tried : List String) (url : String) : List String :=
  if tried.contains url then tried else tried ++ [url]

/-- The orchestrator's first skip test:
`content.error and "validation failed" in content.error.lower()`
(a `None` or empty error string is falsy). -/
def skipValidationB (c : ExtractedContent) : Bool :=
  match c.error with
  | some e => e != "" && strContains (pyToLower e) "validation failed"
  | none => false

/-- The orchestrator's second skip test:
`not content.content or len(content.content.strip()) < 50`. -/
def skipShortB (c : ExtractedContent) : Bool :=
  c.content == "" || (pyStrip c.content).length < 50

/-- The `for i, content in enumerate(batch_content)` classification loop of
`_extract_valid_content`: mark tried, then exception → append error; validation
failure → skip note; short content → skip note; otherwise accept, breaking out of
the batch once `valid_content` reaches the target. -/
def processBatch (target : Nat) (resolver : SearchResult → ResolveOutcome) :
    List SearchResult → ExtractionState → ExtractionState
  | [], st => st
  | s :: rest, st =>
    let st1 := { st with tried := addTried st.tried s.url }
    match resolver s with
    | .exception msg =>
        processBatch target resolver rest
          { st1 with errors := st1.errors ++
              ["Content extraction failed for " ++ s.url ++ ": " ++ pyTake msg 100] }
    | .content c =>
        if skipValidationB c then
          processBatch target resolver rest
            { st1 with skips := st1.skips ++
                ["Skipping invalid content from " ++ c.url] }
        else if skipShortB c then
          processBatch target resolver rest
            { st1 with skips := st1.skips ++
                ["Skipping source with insufficient content: " ++ c.url] }
        else
          let st2 := { st1 with valid_content := st1.valid_content ++ [c] }
          if st2.valid_content.length ≥ target then st2
          else processBatch target resolver rest st2

/-- The `while` loop of `_extract_valid_content`.  `fuel` is
`max_iterations - iteration_count`, so `fuel > 0` is the loop's third condition;
the first batch is the balanced selection sliced to `batch_size`, later batches
the next untried candidates in original order; both in-loop `break`s (no
available sources / empty batch) occur after `iteration_count` was already
incremented. -/
def extractLoop (target : Nat) (resolver : SearchResult → ResolveOutcome)
    (search_results balanced : List SearchResult) (batch_size : Nat) :
    Nat → Nat → ExtractionState → ExtractionState
  | 0, _, st => st
  | fuel + 1, source_index, st =>
    if st.valid_content.length < target ∧ source_index < search_results.length then
      let st1 := { st with iterations := st.iterations + 1 }
      if source_index = 0 then
        let current_batch := balanced.take batch_size
        if current_batch.isEmpty then st1
        else
          extractLoop target resolver search_results balanced batch_size fuel
            (source_index + batch_size) (processBatch target resolver current_batch st1)
      else
        let available := search_results.filter (fun s => ¬ st1.tried.contains s.url)
        if available.isEmpty then st1
        else
          let current_batch := available.take batch_size
          if current_batch.isEmpty then st1
          else
            extractLoop target resolver search_results balanced batch_size fuel
              (source_index + batch_size) (processBatch target resolver current_batch st1)
    else st

/-- `ResearchService._extract_valid_content`: batch size `min(3, |candidates|)`,
balanced first selection, iteration cap 5, starting from the empty state. -/
def extract_valid_content (q : ResearchQuery)
    (resolver : SearchResult → ResolveOutcome)
    (search_results : List SearchResult) : ExtractionState :=
  extractLoop q.num_results resolver search_results
    (select_sources_for_extraction search_results q)
    (min 3 search_results.length) 5 0 ⟨[], [], [], [], 0⟩

/-! ## Output formatting (`ResearchResult.format_output`) -/

/-- The separator `"=" * 40`. -/
def sep40 : String := String.mk (List.replicate 40 '=')

/-- The fixed truncation marker appended when the output is cut. -/
def truncationMsg : String := "\n\n[Content truncated due to size limits]"

/-- Python truthiness of `content.error` (non-`None` and non-empty). -/
def errTruthy : Option String → Bool
  | some e => e != ""
  | none => false

/-- The search-results listing loop of `format_output` (1-based enumeration). -/
def formatSearchResults : Nat → List SearchResult → String
  | _, [] => ""
  | i, r :: rest =>
      toString i ++ ". " ++ r.title ++ "\n" ++
      "   URL: " ++ r.url ++ "\n" ++
      "   " ++ r.snippet ++ "\n\n" ++
      formatSearchResults (i + 1) rest

/-- The extracted-content listing loop of `format_output` (1-based enumeration;
an error banner for error-populated content, full sections otherwise). -/
def formatContents : Nat → List ExtractedContent → String
  | _, [] => ""
  | i, c :: rest =>
      (if errTruthy c.error then
        sep40 ++ "\nSOURCE " ++ toString i ++ ": Error\n" ++ sep40 ++ "\n" ++
        "Error: " ++ c.error.getD "" ++ "\n\n"
      else
        sep40 ++ "\nSOURCE " ++ toString i ++ ": " ++ c.title ++ "\n" ++ sep40 ++ "\n\n" ++
        "URL: " ++ c.url ++ "\n" ++
        "Description: " ++ c.description ++ "\n\n" ++
        "Content:\n" ++ c.content ++ "\n\n") ++
      formatContents (i + 1) rest

/-- The trailing error listing of `format_output`. -/
def formatErrors : List String → String
  | [] => ""
  | e :: rest => "- " ++ e ++ "\n" ++ formatErrors rest

/-- The body of `format_output` before the truncation step. -/
def formatOutputRaw (r : ResearchResult) : String :=
  let source_text := if r.query.sources = SearchSource.both
    then "web and academic sources"
    else r.query.sources.value ++ " sources"
  let s1 := "Research Query: " ++ r.query.query ++ "\n\n"
  let s2 := s1 ++ "Searched " ++ source_text ++ " - Found " ++
    toString r.search_results.length ++ " results\n\n"
  let s3 := if r.search_results.isEmpty then s2
    else s2 ++ "SEARCH RESULTS:\n" ++ formatSearchResults 1 r.search_results
  let s4 := if r.extracted_content.isEmpty then s3
    else s3 ++ "DETAILED CONTENT FROM TOP " ++ toString r.extracted_content.length ++
      " SOURCES:\n\n" ++ formatContents 1 r.extracted_content
  let s5 := s4 ++ "\nRESEARCH SUMMARY:\n" ++ r.summary
  if r.errors.isEmpty then s5
  else s5 ++ "\n\nERRORS ENCOUNTERED:\n" ++ formatErrors r.errors

/-- `ResearchResult.format_output`: build the report and, when it exceeds
`max_size`, cut with Python slicing at `max_size - len(truncation_msg)` (which is
negative for small `max_size`) and append the marker. -/
def format_output (r : ResearchResult) (max_size : Nat := 8000) : String :=
  let result := formatOutputRaw r
  if result.length > max_size then
    pySliceTo result ((max_size : Int) - (truncationMsg.length : Int)) ++ truncationMsg
  else result

/-! ## Academic search HTTP-status flow (`search/base.py`, `academic_search.py`)

Only the status-code handling is in question; the JSON paper-processing loop of a
successful 200 response is abstracted as the already-processed result list
`parsed`.  `httpx.Response.raise_for_status` raises `httpx.HTTPStatusError` for
every 4xx/5xx status, with a message that contains the status code (e.g.
"Client error '429 Too Many Requests' ..."); it is modelled with the message
`"Client error " ++ toString status` — only the presence of the digits of the
status matters to the code under scrutiny (`"429" in str(e)`). -/

/-- `BaseSearcher._make_request`: perform the GET and `raise_for_status()`;
a 4xx/5xx response raises, anything else returns the response (its status). -/
def make_request (status : Nat) : Except String Nat :=
  if 400 ≤ status ∧ status ≤ 599 then
    .error ("Client error " ++ toString status)
  else .ok status

/-- `AcademicSearcher._make_request_with_retry`: `max_retries = 1`, so there is a
single attempt and any exception is re-raised (the `attempt < max_retries - 1`
retry guard can never hold). -/
def make_request_with_retry (status : Nat) : Except String Nat :=
  make_request status

/-- Result of `AcademicSearcher.search`: a result list, or a raised
`SearchError(search_type, message)`. -/
inductive SearchOutcome where
  | results (rs : List SearchResult)
  | searchError (search_type msg : String)
deriving Repr, DecidableEq

/-- The control flow of `AcademicSearcher.search` over the HTTP status of the
response: an exception from the request chain is converted by the enclosing
`except` into `SearchError("academic", str(e))`; a surviving response with
status 429 or any other non-200 status returns `[]`; a 200 response yields the
processed papers. -/
def academic_search (status : Nat) (parsed : List SearchResult) : SearchOutcome :=
  match make_request_with_retry status with
  | .error e => .searchError "academic" e
  | .ok s =>
      if s ≠ 200 then
        if s = 429 then .results []
        else .results []
      else .results parsed

/-! ## Concrete scenario data for the tested properties -/

/-- A body text long enough to be accepted by the orchestrator's length check. -/
def goodBody : String :=
  "This page holds plenty of meaningful prose. It easily clears the length bar."

/-- Candidate `validA` of the batch-retry scenario. -/
def srcA : SearchResult := ⟨"A", "https://a.example", "sa", "web", none⟩

/-- Candidate `invalidB` of the batch-retry scenario. -/
def srcB : SearchResult := ⟨"B", "https://b.example", "sb", "web", none⟩

/-- Candidate `validC` of the batch-retry scenario. -/
def srcC : SearchResult := ⟨"C", "https://c.example", "sc", "web", none⟩

/-- Candidate `validD` of the batch-retry scenario. -/
def srcD : SearchResult := ⟨"D", "https://d.example", "sd", "web", none⟩

/-- The accepted content a valid candidate resolves to. -/
def goodContentOf (s : SearchResult) : ExtractedContent :=
  ⟨s.title, s.url, "No description available", goodBody, 0, none⟩

/-- The resolver of the batch-retry scenario: `invalidB` yields a
validation-failure result, every other candidate yields acceptable content. -/
def c3resolver (s : SearchResult) : ResolveOutcome :=
  if s.url = srcB.url then
    .content ⟨s.title, s.url, "No description available", "", 0,
      some "Content validation failed - low quality or restricted content"⟩
  else .content (goodContentOf s)

/-- The batch-retry scenario's query: target 2, single-provenance scope. -/
def c3query : ResearchQuery := ⟨"batch retry", .web, 2⟩

/-- The batch-retry scenario's candidate list. -/
def c3sources : List SearchResult := [srcA, srcB, srcC, srcD]

/-- Modelled from the spec's words (claim C5): the number of whitespace-delimited
words of the content that are members of the UI/navigation-term denylist.  This is
the spec's reading of the 30% test, to be compared with the code's `uiCount`,
which counts denylist patterns occurring as substrings instead. -/
def specWordOverlapCount (content : String) : Nat :=
  ((pySplitWhitespace content).filter (fun w => ui_patterns.contains w)).length

/-- A content text most of whose words lie in the UI denylist, yet long enough,
free of error patterns, with two long sentences, and containing only one UI
pattern as a substring. -/
def c5content : String := "menu menu menu menu menu. menu menu menu menu menu."

/-- A small research result whose raw formatted output (78 characters) exceeds
the tiny budgets used in the truncation scenarios. -/
def c4result : ResearchResult :=
  { query := ⟨"q", .web, 1⟩
  , search_results := []
  , extracted_content := []
  , summary := ""
  , total_sources := 0
  , errors := [] }

/-- A resolver whose every outcome is a validation-failure content value. -/
def allBadResolver (s : SearchResult) : ResolveOutcome :=
  .content ⟨s.title, s.url, "No description available", "", 0,
    some "Content validation failed - low quality or restricted content"⟩

/-- A resolver accepting everything: used to witness universally quantified
orchestrator facts. -/
def goodResolver (s : SearchResult) : ResolveOutcome :=
  .content (goodContentOf s)

/-- Query with scope `both` and the odd target 5, for the balancer-cap scenario. -/
def c8query : ResearchQuery := ⟨"balanced", .both, 5⟩

/-- Five web candidates followed by five academic candidates. -/
def c8sources : List SearchResult :=
  [ ⟨"W1", "https://w1.example", "s", "web", none⟩
  , ⟨"W2", "https://w2.example", "s", "web", none⟩
  , ⟨"W3", "https://w3.example", "s", "web", none⟩
  , ⟨"W4", "https://w4.example", "s", "web", none⟩
  , ⟨"W5", "https://w5.example", "s", "web", none⟩
  , ⟨"A1", "https://a1.example", "s", "academic", none⟩
  , ⟨"A2", "https://a2.example", "s", "academic", none⟩
  , ⟨"A3", "https://a3.example", "s", "academic", none⟩
  , ⟨"A4", "https://a4.example", "s", "academic", none⟩
  , ⟨"A5", "https://a5.example", "s", "academic", none⟩ ]

/-! ## Invariants of the batch classification loop -/

/-- A resolution outcome the orchestrator will not accept: a captured exception,
or content failing one of the two skip tests. -/
def badOutcomeB (o : ResolveOutcome) : Bool :=
  match o with
  | .exception _ => true
  | .content c => skipValidationB c || skipShortB c

theorem processBatch_length_le (target : Nat) (resolver : SearchResult → ResolveOutcome)
    (batch : List SearchResult) :
    ∀ st : ExtractionState, st.valid_content.length < target →
      (processBatch target resolver batch st).valid_content.length ≤ target := by
  induction batch with
  | nil => intro st h; simpa [processBatch] using Nat.le_of_lt h
  | cons s rest ih =>
    intro st h
    simp only [processBatch]
    cases resolver s with
    | exception msg => exact ih _ (by simpa using h)
    | content c =>
      dsimp only
      by_cases h1 : skipValidationB c = true
      · rw [if_pos h1]
        exact ih _ (by simpa using h)
      · rw [if_neg h1]
        by_cases h2 : skipShortB c = true
        · rw [if_pos h2]
          exact ih _ (by simpa using h)
        · rw [if_neg h2]
          by_cases h3 : st.valid_content.length + 1 ≥ target
          · rw [if_pos (by simpa using h3)]
            simpa using h
          · have hlt : st.valid_content.length + 1 < target := Nat.lt_of_not_le h3
            rw [if_neg (by simpa using h3)]
            apply ih
            simpa using hlt

theorem processBatch_error_none (target : Nat) (resolver : SearchResult → ResolveOutcome)
    (hres : ∀ s c, resolver s = .content c → c.error = none ∨ c.content = "")
    (batch : List SearchResult) :
    ∀ st : ExtractionState, (∀ c ∈ st.valid_content, c.error = none) →
      ∀ c ∈ (processBatch target resolver batch st).valid_content, c.error = none := by
  induction batch with
  | nil => intro st h; simpa [processBatch] using h
  | cons s rest ih =>
    intro st h
    simp only [processBatch]
    cases hr : resolver s with
    | exception msg => exact ih _ (by simpa using h)
    | content c =>
      dsimp only
      by_cases h1 : skipValidationB c = true
      · rw [if_pos h1]; exact ih _ (by simpa using h)
      · rw [if_neg h1]
        by_cases h2 : skipShortB c = true
        · rw [if_pos h2]; exact ih _ (by simpa using h)
        · rw [if_neg h2]
          have hcerr : c.error = none := by
            rcases hres s c hr with he | hc
            · exact he
            · exfalso
              apply h2
              simp [skipShortB, hc]
          have hmem : ∀ x ∈ st.valid_content ++ [c], x.error = none := by
            intro x hx
            rcases List.mem_append.mp hx with hx | hx
            · exact h x hx
            · rcases List.mem_singleton.mp hx with rfl
              exact hcerr
          by_cases h3 : (st.valid_content ++ [c]).length ≥ target
          · rw [if_pos h3]; simpa using hmem
          · rw [if_neg h3]; exact ih _ (by simpa using hmem)

theorem processBatch_iterations (target : Nat) (resolver : SearchResult → ResolveOutcome)
    (batch : List SearchResult) :
    ∀ st : ExtractionState,
      (processBatch target resolver batch st).iterations = st.iterations := by
  induction batch with
  | nil => intro st; simp [processBatch]
  | cons s rest ih =>
    intro st
    simp only [processBatch]
    cases resolver s with
    | exception msg => simpa using ih _
    | content c =>
      dsimp only
      by_cases h1 : skipValidationB c = true
      · rw [if_pos h1]; simpa using ih _
      · rw [if_neg h1]
        by_cases h2 : skipShortB c = true
        · rw [if_pos h2]; simpa using ih _
        · rw [if_neg h2]
          by_cases h3 : (st.valid_content ++ [c]).length ≥ target
          · rw [if_pos h3]
          · rw [if_neg h3]; simpa using ih _

theorem processBatch_all_bad (target : Nat) (resolver : SearchResult → ResolveOutcome)
    (hbad : ∀ s, badOutcomeB (resolver s) = true) (batch : List SearchResult) :
    ∀ st : ExtractionState,
      (processBatch target resolver batch st).valid_content = st.valid_content ∧
      (processBatch target resolver batch st).errors.length +
        (processBatch target resolver batch st).skips.length =
        st.errors.length + st.skips.length + batch.length := by
  induction batch with
  | nil => intro st; simp [processBatch]
  | cons s rest ih =>
    intro st
    simp only [processBatch]
    cases hr : resolver s with
    | exception msg =>
      dsimp only
      rcases ih ⟨st.valid_content, addTried st.tried s.url,
        st.errors ++ ["Content extraction failed for " ++ s.url ++ ": " ++ pyTake msg 100],
        st.skips, st.iterations⟩ with ⟨hv, hl⟩
      refine ⟨by simpa using hv, ?_⟩
      simp only [hl]
      simp only [List.length_append, List.length_cons, List.length_nil]
      omega
    | content c =>
      dsimp only
      have hbs := hbad s
      rw [hr] at hbs
      simp only [badOutcomeB, Bool.or_eq_true] at hbs
      by_cases h1 : skipValidationB c = true
      · rw [if_pos h1]
        rcases ih ⟨st.valid_content, addTried st.tried s.url, st.errors,
          st.skips ++ ["Skipping invalid content from " ++ c.url], st.iterations⟩ with ⟨hv, hl⟩
        refine ⟨by simpa using hv, ?_⟩
        simp only [hl]
        simp only [List.length_append, List.length_cons, List.length_nil]
        omega
      · rw [if_neg h1]
        have h2 : skipShortB c = true := by
          rcases hbs with hbs | hbs
          · exact absurd hbs h1
          · exact hbs
        rw [if_pos h2]
        rcases ih ⟨st.valid_content, addTried st.tried s.url, st.errors,
          st.skips ++ ["Skipping source with insufficient content: " ++ c.url],
          st.iterations⟩ with ⟨hv, hl⟩
        refine ⟨by simpa using hv, ?_⟩
        simp only [hl]
        simp only [List.length_append, List.length_cons, List.length_nil]
        omega

/-! ## Invariants of the batch-retry loop -/

theorem extractLoop_succ_shape (target : Nat) (resolver : SearchResult → ResolveOutcome)
    (srs bal : List SearchResult) (bs fuel idx : Nat) (st : ExtractionState) :
    extractLoop target resolver srs bal bs (fuel + 1) idx st = st ∨
    extractLoop target resolver srs bal bs (fuel + 1) idx st =
      { st with iterations := st.iterations + 1 } ∨
    ∃ batch : List SearchResult,
      extractLoop target resolver srs bal bs (fuel + 1) idx st =
        extractLoop target resolver srs bal bs fuel (idx + bs)
          (processBatch target resolver batch { st with iterations := st.iterations + 1 }) := by
  simp only [extractLoop]
  split_ifs <;>
    first
      | exact Or.inl rfl
      | exact Or.inr (Or.inl rfl)
      | exact Or.inr (Or.inr ⟨_, rfl⟩)

theorem extractLoop_length_le (target : Nat) (resolver : SearchResult → ResolveOutcome)
    (srs bal : List SearchResult) (bs : Nat) :
    ∀ (fuel idx : Nat) (st : ExtractionState), st.valid_content.length ≤ target →
      (extractLoop target resolver srs bal bs fuel idx st).valid_content.length ≤ target := by
  intro fuel
  induction fuel with
  | zero => intro idx st h; simpa [extractLoop] using h
  | succ fuel ih =>
    intro idx st h
    rcases extractLoop_succ_shape target resolver srs bal bs fuel idx st with
      hs | hs | ⟨batch, hs⟩ <;> rw [hs]
    · exact h
    · exact h
    · by_cases hlt : st.valid_content.length < target
      · exact ih _ _ (processBatch_length_le target resolver batch _ (by simpa using hlt))
      · -- with the target already reached the loop could not have entered its body,
        -- but the shape lemma is agnostic: redo the split knowing the condition fails
        have : ¬ (st.valid_content.length < target ∧ idx < srs.length) := fun hc => hlt hc.1
        rw [show extractLoop target resolver srs bal bs (fuel + 1) idx st = st by
          simp only [extractLoop]; rw [if_neg this]] at hs
        rw [← hs]
        exact h

theorem extractLoop_error_none (target : Nat) (resolver : SearchResult → ResolveOutcome)
    (srs bal : List SearchResult) (bs : Nat)
    (hres : ∀ s c, resolver s = .content c → c.error = none ∨ c.content = "") :
    ∀ (fuel idx : Nat) (st : ExtractionState), (∀ c ∈ st.valid_content, c.error = none) →
      ∀ c ∈ (extractLoop target resolver srs bal bs fuel idx st).valid_content,
        c.error = none := by
  intro fuel
  induction fuel with
  | zero => intro idx st h; simpa [extractLoop] using h
  | succ fuel ih =>
    intro idx st h
    rcases extractLoop_succ_shape target resolver srs bal bs fuel idx st with
      hs | hs | ⟨batch, hs⟩ <;> rw [hs]
    · exact h
    · exact h
    · exact ih _ _ (processBatch_error_none target resolver hres batch _ (by simpa using h))

theorem extractLoop_all_bad (target : Nat) (resolver : SearchResult → ResolveOutcome)
    (srs bal : List SearchResult) (bs : Nat)
    (hbad : ∀ s, badOutcomeB (resolver s) = true) :
    ∀ (fuel idx : Nat) (st : ExtractionState),
      (extractLoop target resolver srs bal bs fuel idx st).valid_content = st.valid_content ∧
      st.errors.length + st.skips.length ≤
        (extractLoop target resolver srs bal bs fuel idx st).errors.length +
        (extractLoop target resolver srs bal bs fuel idx st).skips.length := by
  intro fuel
  induction fuel with
  | zero => intro idx st; simp [extractLoop]
  | succ fuel ih =>
    intro idx st
    rcases extractLoop_succ_shape target resolver srs bal bs fuel idx st with
      hs | hs | ⟨batch, hs⟩ <;> rw [hs]
    · exact ⟨rfl, Nat.le_refl _⟩
    · exact ⟨rfl, Nat.le_refl _⟩
    · rcases processBatch_all_bad target resolver hbad batch
        { st with iterations := st.iterations + 1 } with ⟨hv, hl⟩
      rcases ih (idx + bs) (processBatch target resolver batch
        { st with iterations := st.iterations + 1 }) with ⟨hv2, hl2⟩
      refine ⟨by rw [hv2, hv], Nat.le_trans ?_ hl2⟩
      rw [hl]
      dsimp only
      omega

theorem extractLoop_iterations_le (target : Nat) (resolver : SearchResult → ResolveOutcome)
    (srs bal : List SearchResult) (bs : Nat) :
    ∀ (fuel idx : Nat) (st : ExtractionState),
      (extractLoop target resolver srs bal bs fuel idx st).iterations ≤
        st.iterations + fuel := by
  intro fuel
  induction fuel with
  | zero => intro idx st; simp [extractLoop]
  | succ fuel ih =>
    intro idx st
    rcases extractLoop_succ_shape target resolver srs bal bs fuel idx st with
      hs | hs | ⟨batch, hs⟩ <;> rw [hs]
    · omega
    · simp only [ExtractionState.iterations]; omega
    · refine Nat.le_trans (ih _ _) ?_
      rw [processBatch_iterations]
      simp only [ExtractionState.iterations]
      omega

theorem extractLoop_succ_zero (target : Nat) (resolver : SearchResult → ResolveOutcome)
    (srs bal : List SearchResult) (bs fuel : Nat) (st : ExtractionState)
    (hc : st.valid_content.length < target ∧ 0 < srs.length)
    (hne : (bal.take bs).isEmpty = false) :
    extractLoop target resolver srs bal bs (fuel + 1) 0 st =
      extractLoop target resolver srs bal bs fuel (0 + bs)
        (processBatch target resolver (bal.take bs)
          { st with iterations := st.iterations + 1 }) := by
  simp only [extractLoop]
  rw [if_pos (by simpa using hc)]
  rw [if_pos trivial]
  rw [if_neg (by simp [hne])]

/-! ## Invariants of the source balancer -/

theorem countType_append_single (l : List SearchResult) (x : SearchResult) (t : String) :
    countType (l ++ [x]) t =
      countType l t + (if x.source_type == t then 1 else 0) := by
  simp only [countType, List.filter_append]
  by_cases h : (x.source_type == t) = true
  · simp [h]
  · simp [h]

theorem length_eq_countTypes (l : List SearchResult)
    (h : ∀ x ∈ l, x.source_type = "web" ∨ x.source_type = "academic") :
    l.length = countType l "web" + countType l "academic" := by
  induction l with
  | nil => simp [countType]
  | cons x rest ih =>
    have hx := h x (List.mem_cons_self x rest)
    have hrest := ih (fun y hy => h y (List.mem_cons_of_mem x hy))
    rcases hx with hx | hx <;>
      simp [countType, List.filter_cons, hx, hrest, countType] at hrest ⊢ <;> omega

theorem selectIter_invariant (web academic : List SearchResult) (target mpt : Nat)
    (hweb : ∀ x ∈ web, x.source_type = "web")
    (hacad : ∀ x ∈ academic, x.source_type = "academic") :
    ∀ (fuel i : Nat) (combined : List SearchResult),
      countType combined "web" ≤ mpt → countType combined "academic" ≤ mpt →
      (∀ x ∈ combined, x.source_type = "web" ∨ x.source_type = "academic") →
      countType (selectIter web academic target mpt fuel i combined) "web" ≤ mpt ∧
      countType (selectIter web academic target mpt fuel i combined) "academic" ≤ mpt ∧
      (∀ x ∈ selectIter web academic target mpt fuel i combined,
        x.source_type = "web" ∨ x.source_type = "academic") := by
  intro fuel
  induction fuel with
  | zero => intro i combined h1 h2 h3; exact ⟨h1, h2, h3⟩
  | succ fuel ih =>
    intro i combined h1 h2 h3
    simp only [selectIter]
    by_cases hstop : combined.length ≥ target
    · rw [if_pos hstop]; exact ⟨h1, h2, h3⟩
    · rw [if_neg hstop]
      -- the state after the web-side append
      have step1 : ∀ c1 : List SearchResult,
          (c1 = combined ∨ ∃ w ∈ web, c1 = combined ++ [w] ∧
            countType combined "web" < mpt) →
          countType c1 "web" ≤ mpt ∧ countType c1 "academic" ≤ mpt ∧
          (∀ x ∈ c1, x.source_type = "web" ∨ x.source_type = "academic") := by
        intro c1 hc1
        rcases hc1 with rfl | ⟨w, hw, rfl, hlt⟩
        · exact ⟨h1, h2, h3⟩
        · have hwt := hweb w hw
          refine ⟨?_, ?_, ?_⟩
          · rw [countType_append_single]
            simp only [hwt]
            simpa using hlt
          · rw [countType_append_single]
            simp [hwt, h2]
          · intro x hx
            rcases List.mem_append.mp hx with hx | hx
            · exact h3 x hx
            · rcases List.mem_singleton.mp hx with rfl
              exact Or.inl hwt
      -- the actual c1 from the match satisfies the description
      have hc1 : ∀ c1 : List SearchResult,
          c1 = (match web[i]? with
            | some w => if countType combined "web" < mpt then combined ++ [w] else combined
            | none => combined) →
          c1 = combined ∨ ∃ w ∈ web, c1 = combined ++ [w] ∧
            countType combined "web" < mpt := by
        intro c1 hdef
        cases hgw : web[i]? with
        | none => rw [hgw] at hdef; dsimp only at hdef; exact Or.inl hdef
        | some w =>
          rw [hgw] at hdef
          dsimp only at hdef
          by_cases hlt : countType combined "web" < mpt
          · rw [if_pos hlt] at hdef
            exact Or.inr ⟨w, List.getElem?_mem hgw, hdef, hlt⟩
          · rw [if_neg hlt] at hdef
            exact Or.inl hdef
      rcases step1 _ (hc1 _ rfl) with ⟨g1, g2, g3⟩
      -- the state after the academic-side append
      set c1 := (match web[i]? with
        | some w => if countType combined "web" < mpt then combined ++ [w] else combined
        | none => combined) with hc1def
      have step2 : ∀ c2 : List SearchResult,
          (c2 = c1 ∨ ∃ a ∈ academic, c2 = c1 ++ [a] ∧
            countType c1 "academic" < mpt) →
          countType c2 "web" ≤ mpt ∧ countType c2 "academic" ≤ mpt ∧
          (∀ x ∈ c2, x.source_type = "web" ∨ x.source_type = "academic") := by
        intro c2 hc2
        rcases hc2 with rfl | ⟨a, ha, rfl, hlt⟩
        · exact ⟨g1, g2, g3⟩
        · have hat := hacad a ha
          refine ⟨?_, ?_, ?_⟩
          · rw [countType_append_single]
            simp [hat, g1]
          · rw [countType_append_single]
            simp only [hat]
            simpa using hlt
          · intro x hx
            rcases List.mem_append.mp hx with hx | hx
            · exact g3 x hx
            · rcases List.mem_singleton.mp hx with rfl
              exact Or.inr hat
      have hc2 : ∀ c2 : List SearchResult,
          c2 = (match academic[i]? with
            | some a => if countType c1 "academic" < mpt then c1 ++ [a] else c1
            | none => c1) →
          c2 = c1 ∨ ∃ a ∈ academic, c2 = c1 ++ [a] ∧ countType c1 "academic" < mpt := by
        intro c2 hdef
        cases hga : academic[i]? with
        | none => rw [hga] at hdef; dsimp only at hdef; exact Or.inl hdef
        | some a =>
          rw [hga] at hdef
          dsimp only at hdef
          by_cases hlt : countType c1 "academic" < mpt
          · rw [if_pos hlt] at hdef
            exact Or.inr ⟨a, List.getElem?_mem hga, hdef, hlt⟩
          · rw [if_neg hlt] at hdef
            exact Or.inl hdef
      rcases step2 _ (hc2 _ rfl) with ⟨k1, k2, k3⟩
      exact ih _ _ k1 k2 k3

theorem selectIter_length_mono (web academic : List SearchResult) (target mpt : Nat) :
    ∀ (fuel i : Nat) (combined : List SearchResult),
      combined.length ≤ (selectIter web academic target mpt fuel i combined).length := by
  intro fuel
  induction fuel with
  | zero => intro i combined; exact Nat.le_refl _
  | succ fuel ih =>
    intro i combined
    simp only [selectIter]
    by_cases hstop : combined.length ≥ target
    · rw [if_pos hstop]
    · rw [if_neg hstop]
      have l1 : ∀ c1 : List SearchResult,
          c1 = (match web[i]? with
            | some w => if countType combined "web" < mpt then combined ++ [w] else combined
            | none => combined) →
          combined.length ≤ c1.length := by
        intro c1 hdef
        cases hgw : web[i]? with
        | none => rw [hgw] at hdef; dsimp only at hdef; simp [hdef]
        | some w =>
          rw [hgw] at hdef; dsimp only at hdef
          by_cases hlt : countType combined "web" < mpt
          · rw [if_pos hlt] at hdef; simp [hdef]
          · rw [if_neg hlt] at hdef; simp [hdef]
      set c1 := (match web[i]? with
        | some w => if countType combined "web" < mpt then combined ++ [w] else combined
        | none => combined) with hc1def
      have l2 : ∀ c2 : List SearchResult,
          c2 = (match academic[i]? with
            | some a => if countType c1 "academic" < mpt then c1 ++ [a] else c1
            | none => c1) →
          c1.length ≤ c2.length := by
        intro c2 hdef
        cases hga : academic[i]? with
        | none => rw [hga] at hdef; dsimp only at hdef; simp [hdef]
        | some a =>
          rw [hga] at hdef; dsimp only at hdef
          by_cases hlt : countType c1 "academic" < mpt
          · rw [if_pos hlt] at hdef; simp [hdef]
          · rw [if_neg hlt] at hdef; simp [hdef]
      exact Nat.le_trans (Nat.le_trans (l1 _ rfl) (l2 _ rfl)) (ih _ _)

theorem selectIter_ne_nil (web academic : List SearchResult) (target mpt fuel : Nat)
    (htarget : 1 ≤ target) (hmpt : 1 ≤ mpt) (hfuel : 1 ≤ fuel)
    (hne : web ≠ [] ∨ academic ≠ []) :
    selectIter web academic target mpt fuel 0 [] ≠ [] := by
  rcases Nat.exists_eq_add_of_le hfuel with ⟨fuel2, hf⟩
  subst hf
  rw [Nat.add_comm]
  simp only [selectIter]
  rw [if_neg (by simp; omega)]
  have key : ∀ c2 : List SearchResult, 1 ≤ c2.length →
      selectIter web academic target mpt fuel2 1 c2 ≠ [] := by
    intro c2 hc2 hnil
    have := selectIter_length_mono web academic target mpt fuel2 1 c2
    rw [hnil] at this
    simp only [List.length_nil] at this
    omega
  rcases hne with hw | ha
  · rcases web with _ | ⟨w, ws⟩
    · exact absurd rfl hw
    · simp only [List.getElem?_cons_zero]
      rw [if_pos (by simpa [countType] using hmpt)]
      cases hga : academic[0]? with
      | none =>
        dsimp only
        apply key
        simp
      | some a =>
        dsimp only
        by_cases hlt : countType ([] ++ [w]) "academic" < mpt
        · rw [if_pos hlt]
          apply key
          simp
        · rw [if_neg hlt]
          apply key
          simp
  · rcases academic with _ | ⟨a, as⟩
    · exact absurd rfl ha
    · simp only [List.getElem?_cons_zero]
      cases hgw : web[0]? with
      | none =>
        dsimp only
        rw [if_pos (by simp [countType]; omega)]
        apply key
        simp
      | some w =>
        dsimp only
        by_cases hlt : countType ([] : List SearchResult) "web" < mpt
        · rw [if_pos hlt]
          by_cases hlt2 : countType ([] ++ [w]) "academic" < mpt
          · rw [if_pos hlt2]
            apply key
            simp
          · rw [if_neg hlt2]
            apply key
            simp
        · rw [if_neg hlt]
          rw [if_pos (by simp [countType]; omega)]
          apply key
          simp

theorem select_sources_ne_nil (srs : List SearchResult) (q : ResearchQuery)
    (hne : srs ≠ []) (hq : 1 ≤ q.num_results)
    (htypes : ∀ s ∈ srs, s.source_type = "web" ∨ s.source_type = "academic") :
    select_sources_for_extraction srs q ≠ [] := by
  have htake : ∀ l : List SearchResult, l ≠ [] → l.take q.num_results ≠ [] := by
    intro l hl h
    rcases List.take_eq_nil_iff.mp h with h | h
    · omega
    · exact hl h
  cases hsrc : q.sources with
  | web => simp only [select_sources_for_extraction, hsrc]; exact htake _ hne
  | academic => simp only [select_sources_for_extraction, hsrc]; exact htake _ hne
  | both =>
    simp only [select_sources_for_extraction, hsrc]
    apply htake
    rcases srs with _ | ⟨s, rest⟩
    · exact absurd rfl hne
    · have hor : (s :: rest).filter (fun r => r.source_type == "web") ≠ [] ∨
          (s :: rest).filter (fun r => r.source_type == "academic") ≠ [] := by
        rcases htypes s (List.mem_cons_self s rest) with ht | ht
        · left
          simp [List.filter_cons, ht]
        · right
          simp [List.filter_cons, ht]
      apply selectIter_ne_nil _ _ _ _ _ hq (Nat.le_max_left 1 _) ?_ hor
      rcases hor with h | h
      · have := List.length_pos.mpr h
        omega
      · have := List.length_pos.mpr h
        have hle := Nat.le_max_right
          ((s :: rest).filter (fun r => r.source_type == "web")).length
          ((s :: rest).filter (fun r => r.source_type == "academic")).length
        omega

/-! ## String-length facts for the output formatter -/

theorem pyTake_length (s : String) (n : Nat) :
    (pyTake s n).length = min n s.length := by
  cases s with
  | mk l =>
    show (l.take n).length = min n l.length
    simp

theorem strLength_append (s t : String) : (s ++ t).length = s.length + t.length := by
  cases s with
  | mk a =>
    cases t with
    | mk b =>
      show (a ++ b).length = a.length + b.length
      simp

theorem strData_append (s t : String) : (s ++ t).data = s.data ++ t.data := by
  cases s with
  | mk a =>
    cases t with
    | mk b => rfl

/-! ## The resolver contract: error-populated content is always bodyless -/

theorem extract_error_or_empty (url : String) (fetch : FetchOutcome) (now : Nat) :
    (extract url fetch now).error = none ∨ (extract url fetch now).content = "" := by
  cases fetch with
  | failure msg => exact Or.inr rfl
  | success ct page =>
    simp only [extract]
    by_cases h1 : strContains (pyToLower ct) "application/pdf" = true
    · rw [if_pos h1]
      exact Or.inl rfl
    · rw [if_neg h1]
      by_cases h2 : is_valid_content page.content page.description page.title = true
      · rw [if_neg (by simp [h2])]
        exact Or.inl rfl
      · rw [if_pos (by simp [h2])]
        exact Or.inr rfl

theorem extract_from_source_error_or_empty (s : SearchResult) (fetch : FetchOutcome)
    (now : Nat) :
    (extract_from_source s fetch now).error = none ∨
    (extract_from_source s fetch now).content = "" := by
  cases hm : s.metadata with
  | none => simp only [extract_from_source, hm]; exact extract_error_or_empty _ _ _
  | some m =>
    simp only [extract_from_source, hm]
    by_cases h1 : s.source_type = "academic" ∧ m.abstract ≠ ""
    · rw [if_pos h1]
      by_cases h2 : is_valid_content m.abstract "" s.title = true
      · rw [if_neg (by simp [h2])]
        exact Or.inl rfl
      · rw [if_pos (by simp [h2])]
        exact extract_error_or_empty _ _ _
    · rw [if_neg h1]
      exact extract_error_or_empty _ _ _

/-! ## Claim theorems -/

/-- Claim C1: for every research run on a valid query (target count in [1,5]) and
every list of candidate sources with any pattern of resolver outcomes, the accepted
extracted-content list produced by the extraction orchestrator
(`ResearchService._extract_valid_content`) has length at most `query.num_results`. -/
theorem accepted_content_within_target (q : ResearchQuery)
    (resolver : SearchResult → ResolveOutcome) (search_results : List SearchResult)
    (hlo : 1 ≤ q.num_results) (hhi : q.num_results ≤ 5) :
    (extract_valid_content q resolver search_results).valid_content.length ≤
      q.num_results := by
  exact extractLoop_length_le q.num_results resolver search_results _ _ 5 0 _
    (Nat.zero_le _)

/-- Witness for claim C1 at the concrete batch-retry scenario. -/
theorem accepted_content_within_target_witness :
    1 ≤ c3query.num_results ∧ c3query.num_results ≤ 5 ∧
    (extract_valid_content c3query c3resolver c3sources).valid_content.length ≤
      c3query.num_results :=
  ⟨by decide, by decide,
    accepted_content_within_target c3query c3resolver c3sources (by decide) (by decide)⟩

/-- Claim C2 (code evaluated at the failing input): on an HTTP 429 response,
`AcademicSearcher.search` does not return an empty result list — the
`raise_for_status` call inside `BaseSearcher._make_request` raises before the
non-200 check in `search` can run, the retry wrapper re-raises, and the outer
`except` converts the exception into a raised `SearchError("academic", ...)`. -/
theorem academic_search_429_raises :
    academic_search 429 [] = SearchOutcome.searchError "academic" "Client error 429" := by
  rfl

/-- Claim C9: whenever the fetched response's content-type indicates a PDF, the
content resolver short-circuits before any HTML parsing — the result is the fixed
placeholder, independent of the parsed page — and that placeholder carries
`error = none` and the fixed "cannot extract" body instead of usable content. -/
theorem extract_pdf_short_circuits (url ct : String) (page : ParsedPage) (now : Nat)
    (hpdf : strContains (pyToLower ct) "application/pdf" = true) :
    extract url (.success ct page) now = pdfPlaceholder url now ∧
    (pdfPlaceholder url now).error = none ∧
    (pdfPlaceholder url now).content =
      "[PDF document - contents cannot be extracted directly]" := by
  refine ⟨?_, rfl, rfl⟩
  simp only [extract]
  rw [if_pos hpdf]

/-- Witness for claim C9 at a concrete PDF response. -/
theorem extract_pdf_short_circuits_witness :
    strContains (pyToLower "application/pdf") "application/pdf" = true ∧
    extract "https://x.example/p.pdf" (.success "application/pdf" ⟨"t", "d", "b"⟩) 0 =
      pdfPlaceholder "https://x.example/p.pdf" 0 :=
  ⟨by decide,
    (extract_pdf_short_circuits "https://x.example/p.pdf" "application/pdf"
      ⟨"t", "d", "b"⟩ 0 (by decide)).1⟩

/-- Claim C3 counterexample: in the batch-retry scenario (target 2, batch size 3,
candidates [validA, invalidB, validC, validD]) the loop does NOT stop before
issuing a second batch: the balanced first selection is capped at the target
count, so the first batch holds only [validA, invalidB], and a second iteration
is required. -/
theorem batch_retry_second_batch_issued :
    ¬ ((extract_valid_content c3query c3resolver c3sources).iterations ≤ 1) := by
  decide

/-- Claim C3 as amended: with target 2, batch size 3 and candidates
[validA, invalidB, validC, validD], the first batch is the balanced selection
capped at the target (2 candidates: validA, invalidB) and yields accepted
[contentA]; a second batch [validC, validD] is then issued and stops at validC;
the final accepted list is [contentA, contentC] in that order, after exactly 2
iterations, with validD never tried. -/
theorem batch_retry_scenario :
    (extract_valid_content c3query c3resolver c3sources).valid_content =
      [goodContentOf srcA, goodContentOf srcC] ∧
    (extract_valid_content c3query c3resolver c3sources).iterations = 2 ∧
    (extract_valid_content c3query c3resolver c3sources).tried =
      [srcA.url, srcB.url, srcC.url] := by
  refine ⟨?_, ?_, ?_⟩ <;> decide

/-- Claim C4 counterexample: for a max_size (10) smaller than the truncation
marker (40 characters), the truncated output is LONGER than max_size — the
Python slice result[:max_size - len(msg)] has a negative bound, keeping
len(result) - 30 characters before appending the 40-character marker. -/
theorem format_output_truncation_cex :
    10 < (formatOutputRaw c4result).length ∧
    ¬ ((format_output c4result 10).length ≤ 10) := by
  refine ⟨?_, ?_⟩ <;> decide

/-- Claim C4 as amended: for every ResearchResult and every max_size that is at
least the truncation marker length (40) and smaller than the untruncated
output length, format_output returns a string of length at most max_size
(in fact exactly max_size) ending with the fixed truncation marker. -/
theorem format_output_truncates (r : ResearchResult) (max_size : Nat)
    (hm : truncationMsg.length ≤ max_size)
    (hlong : max_size < (formatOutputRaw r).length) :
    (format_output r max_size).length ≤ max_size ∧
    truncationMsg.data <:+ (format_output r max_size).data := by
  have hif : format_output r max_size =
      pySliceTo (formatOutputRaw r)
        ((max_size : Int) - (truncationMsg.length : Int)) ++ truncationMsg := by
    simp only [format_output]
    rw [if_pos hlong]
  rw [hif]
  have hk : (0 : Int) ≤ (max_size : Int) - (truncationMsg.length : Int) := by omega
  constructor
  · rw [strLength_append]
    simp only [pySliceTo]
    rw [if_pos hk, pyTake_length]
    have htn : ((max_size : Int) - (truncationMsg.length : Int)).toNat =
        max_size - truncationMsg.length := by omega
    rw [htn]
    omega
  · rw [strData_append]
    exact List.suffix_append _ _

/-- Witness for the amended claim C4 at a concrete result and max_size 50. -/
theorem format_output_truncates_witness :
    truncationMsg.length ≤ 50 ∧ 50 < (formatOutputRaw c4result).length ∧
    (format_output c4result 50).length ≤ 50 ∧
    truncationMsg.data <:+ (format_output c4result 50).data :=
  ⟨by decide, by decide,
    (format_output_truncates c4result 50 (by decide) (by decide)).1,
    (format_output_truncates c4result 50 (by decide) (by decide)).2⟩

/-- Claim C5 counterexample: a content text 80% of whose whitespace-delimited
words lie in the UI denylist, which the validity filter nevertheless ACCEPTS —
the code counts denylist patterns occurring as substrings (here 1, the word
for menus) against the word count (10), not the overlapping words themselves. -/
theorem validity_filter_word_overlap_cex :
    contentWords c5content * 3 < specWordOverlapCount c5content * 10 ∧
    is_valid_content c5content "" "" = true := by
  refine ⟨?_, ?_⟩ <;> decide

/-- Claim C5 as amended: the filter rejects when the number of UI denylist
PATTERNS occurring as substrings of the lowercased content exceeds 30% of the
whitespace-delimited word count (and the word count is positive). -/
theorem validity_filter_ui_reject (content description title : String)
    (h0 : 0 < contentWords content)
    (h1 : contentWords content * 3 < uiCount (pyToLower content) * 10) :
    is_valid_content content description title = false := by
  simp only [is_valid_content]
  split_ifs with hA hB hC
  · rfl
  · rfl
  · rfl
  · exfalso
    apply hC
    simp only [Bool.and_eq_true, decide_eq_true_eq]
    exact ⟨h0, h1⟩

/-- Witness for the amended claim C5 on a three-word navigation-only content. -/
theorem validity_filter_ui_reject_witness :
    0 < contentWords "menu search login" ∧
    contentWords "menu search login" * 3 <
      uiCount (pyToLower "menu search login") * 10 ∧
    is_valid_content "menu search login" "" "" = false :=
  ⟨by decide, by decide,
    validity_filter_ui_reject "menu search login" "" "" (by decide) (by decide)⟩

/-- Claim C6: for every run of the extraction orchestrator whose resolver
satisfies the Content Resolver contract — content outcomes carrying an error are
bodyless, which extract and extract_from_source guarantee
(extract_error_or_empty, extract_from_source_error_or_empty) — every element
of the accepted list has error = none; exception outcomes and error-populated
contents are never appended. -/
theorem accepted_content_error_free (q : ResearchQuery)
    (resolver : SearchResult → ResolveOutcome) (search_results : List SearchResult)
    (hres : ∀ s c, resolver s = .content c → c.error = none ∨ c.content = "") :
    ((extract_valid_content q resolver search_results).valid_content.all
      (fun c => c.error.isNone)) = true := by
  rw [List.all_eq_true]
  intro c hc
  have hrun : extract_valid_content q resolver search_results =
      extractLoop q.num_results resolver search_results
        (select_sources_for_extraction search_results q)
        (min 3 search_results.length) 5 0 ⟨[], [], [], [], 0⟩ := rfl
  rw [hrun] at hc
  have hen := extractLoop_error_none q.num_results resolver search_results
    (select_sources_for_extraction search_results q) (min 3 search_results.length)
    hres 5 0 ⟨[], [], [], [], 0⟩
    (by intro x hx; exact absurd hx (List.not_mem_nil x)) c hc
  rw [hen]
  rfl

/-- Witness for claim C6: a run with an everything-accepting resolver. -/
theorem accepted_content_error_free_witness :
    ((extract_valid_content c3query goodResolver c3sources).valid_content.all
      (fun c => c.error.isNone)) = true :=
  accepted_content_error_free c3query goodResolver c3sources (by
    intro s c h
    simp only [goodResolver] at h
    injection h with h
    subst h
    exact Or.inl rfl)

/-- Claim C7: with scope both, 4 web candidates followed by 4 academic
candidates and target count 4, the balancer returns exactly 4 candidates
alternating web and academic provenance, each provenance contributing 2,
its cap max(1, 4 / 2). -/
theorem balancer_interleaves_four (qt : String)
    (t1 u1 n1 t2 u2 n2 t3 u3 n3 t4 u4 n4 : String)
    (t5 u5 n5 t6 u6 n6 t7 u7 n7 t8 u8 n8 : String)
    (m1 m2 m3 m4 m5 m6 m7 m8 : Option PaperMeta) :
    select_sources_for_extraction
      [⟨t1, u1, n1, "web", m1⟩, ⟨t2, u2, n2, "web", m2⟩, ⟨t3, u3, n3, "web", m3⟩,
       ⟨t4, u4, n4, "web", m4⟩, ⟨t5, u5, n5, "academic", m5⟩,
       ⟨t6, u6, n6, "academic", m6⟩, ⟨t7, u7, n7, "academic", m7⟩,
       ⟨t8, u8, n8, "academic", m8⟩]
      ⟨qt, .both, 4⟩ =
    [⟨t1, u1, n1, "web", m1⟩, ⟨t5, u5, n5, "academic", m5⟩,
     ⟨t2, u2, n2, "web", m2⟩, ⟨t6, u6, n6, "academic", m6⟩] := by
  simp +decide [select_sources_for_extraction, selectIter, countType, List.filter_cons]

/-- Claim C8: with scope both the balancer output carries at most
max(1, target / 2) candidates of each provenance, hence at most
2 * max(1, target / 2) in total; in particular a target of 5 yields at most 4
candidates, so an odd target of 5 can never be filled by the balanced first
selection alone. -/
theorem balancer_caps_per_provenance (srs : List SearchResult) (q : ResearchQuery)
    (hboth : q.sources = .both) :
    countType (select_sources_for_extraction srs q) "web" ≤
      max 1 (q.num_results / 2) ∧
    countType (select_sources_for_extraction srs q) "academic" ≤
      max 1 (q.num_results / 2) ∧
    (select_sources_for_extraction srs q).length ≤ 2 * max 1 (q.num_results / 2) ∧
    (q.num_results = 5 → (select_sources_for_extraction srs q).length ≤ 4) := by
  simp only [select_sources_for_extraction, hboth]
  have hwt : ∀ x ∈ srs.filter (fun r => r.source_type == "web"),
      x.source_type = "web" := by
    intro x hx
    simpa using (List.mem_filter.mp hx).2
  have hat : ∀ x ∈ srs.filter (fun r => r.source_type == "academic"),
      x.source_type = "academic" := by
    intro x hx
    simpa using (List.mem_filter.mp hx).2
  rcases selectIter_invariant
      (srs.filter (fun r => r.source_type == "web"))
      (srs.filter (fun r => r.source_type == "academic"))
      q.num_results (max 1 (q.num_results / 2)) hwt hat
      (max (srs.filter (fun r => r.source_type == "web")).length
        (srs.filter (fun r => r.source_type == "academic")).length) 0 []
      (by simp [countType]) (by simp [countType])
      (by intro x hx; exact absurd hx (List.not_mem_nil x)) with ⟨g1, g2, g3⟩
  have htake : (List.take q.num_results (selectIter
      (srs.filter (fun r => r.source_type == "web"))
      (srs.filter (fun r => r.source_type == "academic"))
      q.num_results (max 1 (q.num_results / 2))
      (max (srs.filter (fun r => r.source_type == "web")).length
        (srs.filter (fun r => r.source_type == "academic")).length) 0 [])).Sublist
      (selectIter
      (srs.filter (fun r => r.source_type == "web"))
      (srs.filter (fun r => r.source_type == "academic"))
      q.num_results (max 1 (q.num_results / 2))
      (max (srs.filter (fun r => r.source_type == "web")).length
        (srs.filter (fun r => r.source_type == "academic")).length) 0 []) :=
    List.take_sublist _ _
  have hcw := Nat.le_trans
    (List.Sublist.length_le (List.Sublist.filter _ htake)) g1
  have hca := Nat.le_trans
    (List.Sublist.length_le (List.Sublist.filter _ htake)) g2
  have hmem : ∀ x ∈ List.take q.num_results (selectIter
      (srs.filter (fun r => r.source_type == "web"))
      (srs.filter (fun r => r.source_type == "academic"))
      q.num_results (max 1 (q.num_results / 2))
      (max (srs.filter (fun r => r.source_type == "web")).length
        (srs.filter (fun r => r.source_type == "academic")).length) 0 []),
      x.source_type = "web" ∨ x.source_type = "academic" := by
    intro x hx
    exact g3 x (htake.subset hx)
  have hlen := length_eq_countTypes _ hmem
  simp only [countType] at hlen
  refine ⟨hcw, hca, ?_, ?_⟩
  · omega
  · intro h5
    rw [h5] at hcw hca hlen ⊢
    omega

/-- Witness for claim C8: scope both, target 5, five candidates of each
provenance — the balanced selection has at most 2 of each type and at most 4
in total. -/
theorem balancer_caps_per_provenance_witness :
    countType (select_sources_for_extraction c8sources c8query) "web" ≤
      max 1 (c8query.num_results / 2) ∧
    countType (select_sources_for_extraction c8sources c8query) "academic" ≤
      max 1 (c8query.num_results / 2) ∧
    (select_sources_for_extraction c8sources c8query).length ≤
      2 * max 1 (c8query.num_results / 2) ∧
    (c8query.num_results = 5 →
      (select_sources_for_extraction c8sources c8query).length ≤ 4) :=
  balancer_caps_per_provenance c8sources c8query rfl

/-- Claim C10: when every resolution outcome is invalid or an error, the
orchestrator terminates (it is a total function of its fuel, the iteration cap
5), accepts nothing, runs at most 5 iterations, and populates the error/skip
log; no exception escapes — exceptions are per-item outcomes absorbed into the
error list. -/
theorem all_invalid_terminates_empty (q : ResearchQuery)
    (resolver : SearchResult → ResolveOutcome) (srs : List SearchResult)
    (hq : 1 ≤ q.num_results) (hne : srs ≠ [])
    (htypes : ∀ s ∈ srs, s.source_type = "web" ∨ s.source_type = "academic")
    (hbad : ∀ s, badOutcomeB (resolver s) = true) :
    (extract_valid_content q resolver srs).valid_content = [] ∧
    (extract_valid_content q resolver srs).iterations ≤ 5 ∧
    0 < (extract_valid_content q resolver srs).errors.length +
        (extract_valid_content q resolver srs).skips.length := by
  have hpos : 0 < srs.length := List.length_pos.mpr hne
  have hbal : select_sources_for_extraction srs q ≠ [] :=
    select_sources_ne_nil srs q hne hq htypes
  have hbatchne : (select_sources_for_extraction srs q).take (min 3 srs.length) ≠ [] := by
    intro h
    rcases List.take_eq_nil_iff.mp h with h | h
    · omega
    · exact hbal h
  have hbatch : ((select_sources_for_extraction srs q).take
      (min 3 srs.length)).isEmpty = false := by
    rcases h : ((select_sources_for_extraction srs q).take
        (min 3 srs.length)).isEmpty with _ | _
    · rfl
    · exact absurd (List.isEmpty_iff.mp h) hbatchne
  have hrun : extract_valid_content q resolver srs =
      extractLoop q.num_results resolver srs (select_sources_for_extraction srs q)
        (min 3 srs.length) (4 + 1) 0 ⟨[], [], [], [], 0⟩ := rfl
  have hstep : extract_valid_content q resolver srs =
      extractLoop q.num_results resolver srs (select_sources_for_extraction srs q)
        (min 3 srs.length) 4 (0 + min 3 srs.length)
        (processBatch q.num_results resolver
          ((select_sources_for_extraction srs q).take (min 3 srs.length))
          ⟨[], [], [], [], 1⟩) :=
    extractLoop_succ_zero q.num_results resolver srs
      (select_sources_for_extraction srs q) (min 3 srs.length) 4
      ⟨[], [], [], [], 0⟩ ⟨by simpa using hq, hpos⟩ hbatch
  rcases processBatch_all_bad q.num_results resolver hbad
    ((select_sources_for_extraction srs q).take (min 3 srs.length))
    ⟨[], [], [], [], 1⟩ with ⟨hpv, hpl⟩
  rcases extractLoop_all_bad q.num_results resolver srs
    (select_sources_for_extraction srs q) (min 3 srs.length) hbad 4
    (0 + min 3 srs.length)
    (processBatch q.num_results resolver
      ((select_sources_for_extraction srs q).take (min 3 srs.length))
      ⟨[], [], [], [], 1⟩) with ⟨hlv, hll⟩
  have hbatchlen : 0 <
      ((select_sources_for_extraction srs q).take (min 3 srs.length)).length :=
    List.length_pos.mpr hbatchne
  refine ⟨?_, ?_, ?_⟩
  · rw [hstep, hlv, hpv]
  · rw [hrun]
    have := extractLoop_iterations_le q.num_results resolver srs
      (select_sources_for_extraction srs q) (min 3 srs.length) (4 + 1) 0
      ⟨[], [], [], [], 0⟩
    simpa using this
  · rw [hstep]
    simp only [List.length_nil] at hpl
    omega

/-- Witness for claim C10: the batch-retry candidates with an all-rejecting
resolver. -/
theorem all_invalid_terminates_empty_witness :
    (extract_valid_content c3query allBadResolver c3sources).valid_content = [] ∧
    (extract_valid_content c3query allBadResolver c3sources).iterations ≤ 5 ∧
    0 < (extract_valid_content c3query allBadResolver c3sources).errors.length +
        (extract_valid_content c3query allBadResolver c3sources).skips.length :=
  all_invalid_terminates_empty c3query allBadResolver c3sources (by decide)
    (by decide) (by decide) (fun s => rfl)
